import Mathlib

/-!
Verification of the generic data-access layer of FastAPiPro
(`src/orm/base/base_model.py`): the `ORM` query executor, the `BaseORM`
entity base and the `DataBaseSessionManager` connection manager.

The embedding models the database as an in-memory list of rows, a session
acquisition as a wrapper around an operation body, and records the
externally observable session events (session opened on the async or the
sync path, statement executed, commit, rollback, close) in a trace, so
that claims about session lifecycle and about "zero statements reach the
session" can be stated and settled.
-/

deriving instance DecidableEq for Except

namespace FastAPiPro

/-- Column values; the layer is agnostic to the value type, integers
suffice for every claim. -/
abbrev Value := Int

/-- An entity type (a `BaseORM` subclass): its class name and the names of
its declared attributes (columns and relations, including `id`).
`a ∈ attrs` models Python `hasattr(model, a)`. -/
structure Model where
  name : String
  attrs : List String
deriving Repr, DecidableEq

/-- A persisted row: the integer identity plus the remaining column
values. -/
structure Row where
  id : Nat
  fields : List (String × Value)
deriving Repr, DecidableEq

/-- Attribute access on a loaded instance: `id` is the identity column,
anything else is looked up among the remaining fields. -/
def Row.attrVal (r : Row) (a : String) : Option Value :=
  if a = "id" then some (Int.ofNat r.id) else r.fields.lookup a

/-- Database state: the stored rows plus the autoincrement counter that
assigns the identity of the next inserted row. -/
structure DB where
  rows : List Row
  nextId : Nat
deriving Repr, DecidableEq

/-- Observable session events, in order of occurrence.  `openAsync` /
`openSync` mark session acquisition on the corresponding path, `stmt`
marks a statement reaching the session (SELECT / flushed INSERT, UPDATE,
DELETE / refresh), `commit`, `rollback` and `closeSession` mark
transaction and lifecycle calls the program performs.  `rollback` is
part of the vocabulary so that its absence can be stated, but no
operation of this program ever emits it: the only rollback call in the
source sits in an `except Exception` branch that generator finalization
bypasses. -/
inductive Ev where
  | openAsync
  | openSync
  | stmt
  | commit
  | rollback
  | closeSession
deriving Repr, DecidableEq

/-- The errors the layer raises: `attributeError model attr` models the
Python `AttributeError` raised when `attr` is not an attribute of
`model`, `notInitializedError` models the `Exception` raised when a
session is requested from a missing sessionmaker (the spec's
`UninitializedError`). -/
inductive Err where
  | attributeError (model : String) (attr : String)
  | notInitializedError (msg : String)
deriving Repr, DecidableEq

/-- The result of running one operation: the Python return value or the
raised error, the database state after the operation, and the trace of
session events. -/
abbrev OpResult (α : Type) := Except Err α × DB × List Ev

/-- `DataBaseSessionManager`: whether each of the two sessionmakers built
by `__init__` is still present (`close()` sets them to `None`). -/
structure DataBaseSessionManager where
  asyncSessionmakerPresent : Bool
  syncSessionmakerPresent : Bool
deriving Repr, DecidableEq

/-- `DataBaseSessionManager.__init__`: constructs both engines and both
sessionmakers (pool size 5, overflow 2, timeout 10s, recycle 600s; the
pool numbers do not enter any claim settled here). -/
def DataBaseSessionManager.construct : DataBaseSessionManager :=
  { asyncSessionmakerPresent := true, syncSessionmakerPresent := true }

/-- `DataBaseSessionManager.close`: disposes both engines and drops both
sessionmakers. -/
def DataBaseSessionManager.close (_m : DataBaseSessionManager) :
    DataBaseSessionManager :=
  { asyncSessionmakerPresent := false, syncSessionmakerPresent := false }

/-- Message of the `Exception` raised by `async_session` / `sync_session`
on a missing sessionmaker. -/
def uninitializedMsg : String := "DataBaseSessionManager is not initialized"

/-- `DataBaseSessionManager.async_session`, as this program actually
executes it.  The uninitialized-sessionmaker guard runs before the yield
and really raises; but the try / commit / except-Exception / rollback
around the yield is dead code here: every `ORM` method consumes the
session via `async for db_session in ...: ... return ...`, abandoning
the generator on its first iteration, so the generator is finalized
with `GeneratorExit`, which skips the post-yield `session.commit()`
and, being a `BaseException`, is not caught by `except Exception`.  The
scope therefore neither commits nor rolls back: the body's result,
state and events pass through with only the session-open event added
(the async context manager owns closing; the source has no explicit
close call on this path). -/
def DataBaseSessionManager.async_session {α : Type}
    (m : DataBaseSessionManager) (body : DB → OpResult α) (db : DB) :
    OpResult α :=
  if m.asyncSessionmakerPresent = false then
    (.error (.notInitializedError uninitializedMsg), db, [])
  else
    match body db with
    | (r, db2, evs) => (r, db2, Ev.openAsync :: evs)

/-- `DataBaseSessionManager.sync_session`, as this program actually
executes it: `ORM.get` consumes it via `for ... return`, so the
generator is finalized with `GeneratorExit` exactly as on the async
path — the `session.commit()` after the yield is skipped and the
`except Exception` rollback is bypassed; only the
`finally: session.close()` runs, on every exit path, so the trace ends
with `closeSession`. -/
def DataBaseSessionManager.sync_session {α : Type}
    (m : DataBaseSessionManager) (body : DB → OpResult α) (db : DB) :
    OpResult α :=
  if m.syncSessionmakerPresent = false then
    (.error (.notInitializedError uninitializedMsg), db, [])
  else
    match body db with
    | (r, db2, evs) => (r, db2, Ev.openSync :: evs ++ [Ev.closeSession])

/-- Message of the `Exception` raised by `BaseORM._async_session` /
`BaseORM._sync_session` when `BaseORM.initialize` has not registered a
manager. -/
def baseUninitializedMsg : String :=
  "DataBaseSessionManager is not initialized for Base."

/-- `BaseORM._async_session`: raises when no manager is registered on the
entity base, otherwise delegates to the manager's `async_session`. -/
def asyncSessionOfBase {α : Type} (dbManager : Option DataBaseSessionManager)
    (body : DB → OpResult α) (db : DB) : OpResult α :=
  match dbManager with
  | none => (.error (.notInitializedError baseUninitializedMsg), db, [])
  | some m => m.async_session body db

/-- `BaseORM._sync_session`: raises when no manager is registered on the
entity base, otherwise delegates to the manager's `sync_session`. -/
def syncSessionOfBase {α : Type} (dbManager : Option DataBaseSessionManager)
    (body : DB → OpResult α) (db : DB) : OpResult α :=
  match dbManager with
  | none => (.error (.notInitializedError baseUninitializedMsg), db, [])
  | some m => m.sync_session body db

/-- One step of the loop body of `ORM._filter_conditions`: a condition is
collected for a declared attribute, an unknown attribute raises
`AttributeError` at the first offending key.  The collected condition
`(attr, value)` stands for the SQLAlchemy equality expression
`getattr(model, attr) == value`. -/
def condsOf (m : Model) : List (String × Value) → Except Err (List (String × Value))
  | [] => .ok []
  | (attr, value) :: rest =>
      if attr ∈ m.attrs then
        (condsOf m rest).map (fun cs => (attr, value) :: cs)
      else
        .error (.attributeError m.name attr)

/-- `ORM._filter_conditions`: a missing mapping (`None`) defaults to the
empty mapping (`filtered_fields or {}`), then each key is validated
against the model as in `condsOf`. -/
def ORM.filterConditions (m : Model)
    (filtered_fields : Option (List (String × Value))) :
    Except Err (List (String × Value)) :=
  condsOf m (filtered_fields.getD [])

/-- A row satisfies an equality condition list when every named attribute
holds the expected value (the semantics the engine gives the conjunction
of `where` clauses built by `_filter_conditions`). -/
def Row.sat (r : Row) (conds : List (String × Value)) : Bool :=
  conds.all (fun c => r.attrVal c.1 == some c.2)

/-- Replace the value stored under a key, or append the binding when the
key is absent (the flushed effect of a column assignment). -/
def upsertField : List (String × Value) → String → Value → List (String × Value)
  | [], k, v => [(k, v)]
  | (a, b) :: rest, k, v =>
      if a = k then (k, v) :: rest else (a, b) :: upsertField rest k v

/-- `setattr(instance, k, v)` on a loaded instance.  Assignment never
raises: a declared column is updated (and later flushed to the row), an
`id` assignment changes the identity column, and an unknown name becomes
a plain dynamic attribute of the in-memory object, which no flush
persists — the persisted row is unchanged. -/
def Row.setAttr (m : Model) (r : Row) (k : String) (v : Value) : Row :=
  if k ∈ m.attrs then
    if k = "id" then { r with id := v.toNat }
    else { r with fields := upsertField r.fields k v }
  else r

/-- `ORM.create(**kwargs)`: constructs the instance, adds it to the
session, commits (flushing the INSERT, which populates the identity from
the autoincrement counter) and refreshes it. -/
def ORM.create (m : Model) (dbManager : Option DataBaseSessionManager)
    (kwargs : List (String × Value)) (db : DB) : OpResult Row :=
  asyncSessionOfBase dbManager (fun db =>
    let inst : Row := { id := db.nextId, fields := kwargs }
    (.ok inst,
     { rows := db.rows ++ [inst], nextId := db.nextId + 1 },
     [Ev.stmt, Ev.commit, Ev.stmt])) db

/-- `ORM.get(pk)`: on the sync path, executes
`select(model).filter(model.id == pk)` and returns the first scalar, or
`None`. -/
def ORM.get (m : Model) (dbManager : Option DataBaseSessionManager)
    (pk : Nat) (db : DB) : OpResult (Option Row) :=
  syncSessionOfBase dbManager (fun db =>
    (.ok (db.rows.find? (fun r => r.id = pk)), db, [Ev.stmt])) db

/-- `ORM.update(pk, **kwargs)`: loads the row by primary key, returns
`None` when absent; otherwise applies `setattr` for every pair, commits
(flushing the UPDATE) and refreshes, returning the updated instance. -/
def ORM.update (m : Model) (dbManager : Option DataBaseSessionManager)
    (pk : Nat) (kwargs : List (String × Value)) (db : DB) :
    OpResult (Option Row) :=
  asyncSessionOfBase dbManager (fun db =>
    match db.rows.find? (fun r => r.id = pk) with
    | none => (.ok none, db, [Ev.stmt])
    | some inst =>
        let updated := kwargs.foldl
          (fun r kv => Row.setAttr m r kv.1 kv.2) inst
        (.ok (some updated),
         { rows := db.rows.map (fun r => if r.id = pk then updated else r),
           nextId := db.nextId },
         [Ev.stmt, Ev.stmt, Ev.commit, Ev.stmt])) db

/-- `ORM.delete(pk)`: loads the row by primary key, returns `False` when
absent; otherwise deletes it, commits (flushing the DELETE) and returns
`True`. -/
def ORM.delete (m : Model) (dbManager : Option DataBaseSessionManager)
    (pk : Nat) (db : DB) : OpResult Bool :=
  asyncSessionOfBase dbManager (fun db =>
    match db.rows.find? (fun r => r.id = pk) with
    | none => (.ok false, db, [Ev.stmt])
    | some _ =>
        (.ok true,
         { rows := db.rows.filter (fun r => ¬ r.id = pk), nextId := db.nextId },
         [Ev.stmt, Ev.stmt, Ev.commit])) db

/-- `ORM.all()`: executes `select(model)` and returns every row in
storage order. -/
def ORM.all (m : Model) (dbManager : Option DataBaseSessionManager)
    (db : DB) : OpResult (List Row) :=
  asyncSessionOfBase dbManager (fun db =>
    (.ok db.rows, db, [Ev.stmt])) db

/-- `ORM.filter(**filters)`: inside the session, `_filter_conditions`
runs before `execute`, so an unknown key raises before any statement
reaches the session; otherwise the matching rows are returned. -/
def ORM.filter (m : Model) (dbManager : Option DataBaseSessionManager)
    (filters : List (String × Value)) (db : DB) : OpResult (List Row) :=
  asyncSessionOfBase dbManager (fun db =>
    match ORM.filterConditions m (some filters) with
    | .error e => (.error e, db, [])
    | .ok conds =>
        (.ok (db.rows.filter (fun r => r.sat conds)), db, [Ev.stmt])) db

/-- `ORM.first(**filters)`: as `filter`, returning the first matching
row or `None`. -/
def ORM.first (m : Model) (dbManager : Option DataBaseSessionManager)
    (filters : List (String × Value)) (db : DB) : OpResult (Option Row) :=
  asyncSessionOfBase dbManager (fun db =>
    match ORM.filterConditions m (some filters) with
    | .error e => (.error e, db, [])
    | .ok conds =>
        (.ok (db.rows.find? (fun r => r.sat conds)), db, [Ev.stmt])) db

/-- `ORM.count()`: executes `select(count()).select_from(model)`. -/
def ORM.count (m : Model) (dbManager : Option DataBaseSessionManager)
    (db : DB) : OpResult Nat :=
  asyncSessionOfBase dbManager (fun db =>
    (.ok db.rows.length, db, [Ev.stmt])) db

/-- `ORM.exists(**filters)`: `await self.first(**filters) is not None` —
it delegates to `first` (which opens its own session) and tests the
result. -/
def ORM.existsQ (m : Model) (dbManager : Option DataBaseSessionManager)
    (filters : List (String × Value)) (db : DB) : OpResult Bool :=
  match ORM.first m dbManager filters db with
  | (.ok r, db2, evs) => (.ok r.isSome, db2, evs)
  | (.error e, db2, evs) => (.error e, db2, evs)

/-- The relation-name loop at the head of `ORM.select_related`: each name
in `attrs` is checked with `hasattr` before any session is acquired.  (In
the source the error message is built from `self.__name__`, which the
executor object lacks, so that very line raises `AttributeError` itself;
either way the caller observes an `AttributeError`, modelled as
`Err.attributeError`.) -/
def checkRelatedAttrs (m : Model) : List String → Except Err Unit
  | [] => .ok ()
  | a :: rest =>
      if a ∈ m.attrs then checkRelatedAttrs m rest
      else .error (.attributeError m.name a)

/-- `ORM.select_related(attrs, **kwargs)`: validates the relation names
(`attrs or []`) before acquiring any session, then inside the session
builds the filter conditions from `kwargs`, returns `None` when no row
matches, and otherwise refreshes the named relations on the first match
and returns it. -/
def ORM.select_related (m : Model) (dbManager : Option DataBaseSessionManager)
    (attrs : Option (List String)) (kwargs : List (String × Value)) (db : DB) :
    OpResult (Option Row) :=
  match checkRelatedAttrs m (attrs.getD []) with
  | .error e => (.error e, db, [])
  | .ok _ =>
      asyncSessionOfBase dbManager (fun db =>
        match ORM.filterConditions m (some kwargs) with
        | .error e => (.error e, db, [])
        | .ok conds =>
            match db.rows.find? (fun r => r.sat conds) with
            | none => (.ok none, db, [Ev.stmt])
            | some inst => (.ok (some inst), db, [Ev.stmt, Ev.stmt])) db

/-- `BaseORM.save()`: merges the in-memory instance into a fresh async
session (inserting when the identity is new, overwriting the matching row
otherwise), commits and refreshes. -/
def BaseORM.save (r : Row) (dbManager : Option DataBaseSessionManager)
    (db : DB) : OpResult Row :=
  asyncSessionOfBase dbManager (fun db =>
    match db.rows.find? (fun x => x.id = r.id) with
    | some _ =>
        (.ok r,
         { rows := db.rows.map (fun x => if x.id = r.id then r else x),
           nextId := db.nextId },
         [Ev.stmt, Ev.stmt, Ev.commit, Ev.stmt])
    | none =>
        (.ok r,
         { rows := db.rows ++ [r], nextId := db.nextId },
         [Ev.stmt, Ev.stmt, Ev.commit, Ev.stmt])) db

/-! Step sequences of successful `create` and `delete` calls, for the
counting property of `count()`. -/

/-- One call in a create/delete call sequence. -/
inductive Step where
  | createRecord (kwargs : List (String × Value))
  | deleteRecord (pk : Nat)
deriving Repr, DecidableEq

/-- The database state after one call. -/
def runStep (m : Model) (mgr : DataBaseSessionManager) (db : DB) :
    Step → DB
  | .createRecord kw => (ORM.create m (some mgr) kw db).2.1
  | .deleteRecord pk => (ORM.delete m (some mgr) pk db).2.1

/-- The database state after a sequence of calls. -/
def runSteps (m : Model) (mgr : DataBaseSessionManager) (db : DB) :
    List Step → DB
  | [] => db
  | s :: rest => runSteps m mgr (runStep m mgr db s) rest

/-- Number of `create` calls in a sequence. -/
def numCreates : List Step → Nat
  | [] => 0
  | .createRecord _ :: rest => numCreates rest + 1
  | .deleteRecord _ :: rest => numCreates rest

/-- Number of `delete` calls in a sequence that return `True` (actually
removed a row), evaluated along the run. -/
def numSuccessfulDeletes (m : Model) (mgr : DataBaseSessionManager)
    (db : DB) : List Step → Nat
  | [] => 0
  | .createRecord kw :: rest =>
      numSuccessfulDeletes m mgr (runStep m mgr db (.createRecord kw)) rest
  | .deleteRecord pk :: rest =>
      (if (ORM.delete m (some mgr) pk db).1 = .ok true then 1 else 0) +
        numSuccessfulDeletes m mgr (runStep m mgr db (.deleteRecord pk)) rest

/-- The well-formedness the autoincrement primary key maintains: every
stored identity is below the counter, and identities are pairwise
distinct. -/
def DB.WF (db : DB) : Prop :=
  (∀ r ∈ db.rows, r.id < db.nextId) ∧ (db.rows.map Row.id).Nodup

/-! Concrete sample objects used by the witnesses and counterexamples. -/

/-- A `User` entity type with an identity, a column and a relation. -/
def userModel : Model := { name := "User", attrs := ["id", "name", "posts"] }

/-- A freshly constructed (hence initialized) manager. -/
def readyManager : DataBaseSessionManager := DataBaseSessionManager.construct

/-- A sample stored row. -/
def sampleRow : Row := { id := 1, fields := [("name", 7)] }

/-- A database holding only `sampleRow`. -/
def sampleDB : DB := { rows := [sampleRow], nextId := 2 }

/-- The empty database. -/
def emptyDB : DB := { rows := [], nextId := 1 }

/-! ### Helper lemmas -/

theorem condsOf_ok_of_valid (m : Model) (fs : List (String × Value))
    (h : ∀ p ∈ fs, p.1 ∈ m.attrs) : condsOf m fs = .ok fs := by
  induction fs with
  | nil => rfl
  | cons p rest ih =>
      obtain ⟨a, v⟩ := p
      have hp : a ∈ m.attrs := h (a, v) (List.mem_cons_self _ _)
      have hrest := ih (fun q hq => h q (List.mem_cons_of_mem _ hq))
      simp [condsOf, hp, hrest, Except.map]

theorem condsOf_error_of_unknown (m : Model) (fs : List (String × Value))
    (h : ∃ p ∈ fs, ¬ p.1 ∈ m.attrs) :
    ∃ a, ¬ a ∈ m.attrs ∧ condsOf m fs = .error (.attributeError m.name a) := by
  induction fs with
  | nil => simp at h
  | cons p rest ih =>
      obtain ⟨a, v⟩ := p
      by_cases ha : a ∈ m.attrs
      · have hrest : ∃ q ∈ rest, ¬ q.1 ∈ m.attrs := by
          rcases h with ⟨q, hq, hbad⟩
          rcases List.mem_cons.mp hq with h1 | hmem
          · subst h1; exact absurd ha hbad
          · exact ⟨q, hmem, hbad⟩
        rcases ih hrest with ⟨b, hb, herr⟩
        exact ⟨b, hb, by simp [condsOf, ha, herr, Except.map]⟩
      · exact ⟨a, ha, by simp [condsOf, ha]⟩

theorem checkRelatedAttrs_ok_of_valid (m : Model) (as : List String)
    (h : ∀ a ∈ as, a ∈ m.attrs) : checkRelatedAttrs m as = .ok () := by
  induction as with
  | nil => rfl
  | cons a rest ih =>
      have ha : a ∈ m.attrs := h a (List.mem_cons_self _ _)
      have hrest := ih (fun b hb => h b (List.mem_cons_of_mem _ hb))
      simp [checkRelatedAttrs, ha, hrest]

theorem foldl_setAttr_of_unknown (m : Model) (kwargs : List (String × Value))
    (h : ∀ p ∈ kwargs, ¬ p.1 ∈ m.attrs) (r : Row) :
    kwargs.foldl (fun r kv => Row.setAttr m r kv.1 kv.2) r = r := by
  induction kwargs generalizing r with
  | nil => rfl
  | cons p rest ih =>
      have hp : ¬ p.1 ∈ m.attrs := h p (List.mem_cons_self _ _)
      have hrest := ih (fun q hq => h q (List.mem_cons_of_mem _ hq))
      have hsa : Row.setAttr m r p.1 p.2 = r := by simp [Row.setAttr, hp]
      rw [List.foldl_cons, hsa]
      exact hrest r

/-! ### Claim C10 -/

/-- Claim C10: for every entity type, `filter` called with an empty
predicate mapping is indistinguishable from `all()` — result, database
state and trace coincide — and a missing (`None`) mapping produces no
filter conditions. -/
theorem filter_empty_eq_all (m : Model)
    (dbManager : Option DataBaseSessionManager) (db : DB) :
    ORM.filter m dbManager [] db = ORM.all m dbManager db ∧
    ORM.filterConditions m none = Except.ok [] := by
  refine ⟨?_, rfl⟩
  unfold ORM.filter ORM.all
  congr 1
  funext db
  have hsat : ∀ r : Row, r.sat [] = true := fun r => rfl
  simp [ORM.filterConditions, condsOf, List.filter_eq_self.mpr
    (fun r _ => hsat r)]

/-! ### Claim C3 -/

/-- Claim C3: session acquisition attempted before the manager is
initialized (no manager registered on the entity base), and session
acquisition attempted after `close()`, both fail with the uninitialized
error, on the async and the sync path alike, touching neither the
database state nor the session (empty trace). -/
theorem session_acquisition_uninitialized {α : Type}
    (m : DataBaseSessionManager) (body : DB → OpResult α) (db : DB) :
    asyncSessionOfBase none body db
      = (.error (.notInitializedError baseUninitializedMsg), db, []) ∧
    syncSessionOfBase none body db
      = (.error (.notInitializedError baseUninitializedMsg), db, []) ∧
    DataBaseSessionManager.async_session m.close body db
      = (.error (.notInitializedError uninitializedMsg), db, []) ∧
    DataBaseSessionManager.sync_session m.close body db
      = (.error (.notInitializedError uninitializedMsg), db, []) :=
  ⟨rfl, rfl, rfl, rfl⟩

/-! ### Claim C2 -/

/-- Claim C2 counterexample: `update` on an existing row with an unknown
field key does not propagate any error — the call succeeds and returns
the entity with its persisted columns unchanged. -/
theorem update_unknown_field_counterexample :
    (ORM.update userModel (some readyManager) 1 [("bogus", 5)] sampleDB).1
      = Except.ok (some sampleRow) := rfl

/-- Claim C2 (amended): `update(id, fields)` on an existing row with
unknown field keys raises no attribute error: the dynamic attribute
assignments are silently accepted and the call returns the loaded entity
with its persisted columns unchanged. -/
theorem update_unknown_fields_silently_accepted (m : Model)
    (mgr : DataBaseSessionManager)
    (ha : mgr.asyncSessionmakerPresent = true)
    (pk : Nat) (kwargs : List (String × Value)) (db : DB) (r : Row)
    (hfind : db.rows.find? (fun x => x.id = pk) = some r)
    (hunknown : ∀ p ∈ kwargs, ¬ p.1 ∈ m.attrs) :
    (ORM.update m (some mgr) pk kwargs db).1 = .ok (some r) ∧
    (ORM.update m (some mgr) pk kwargs db).2.1.rows
      = db.rows.map (fun x => if x.id = pk then r else x) := by
  simp [ORM.update, asyncSessionOfBase, DataBaseSessionManager.async_session,
    ha, hfind, foldl_setAttr_of_unknown m kwargs hunknown r]

/-- Witness for the amended C2 at a concrete input. -/
theorem update_unknown_fields_silently_accepted_witness :
    (ORM.update userModel (some readyManager) 1 [("bogus", 5)] sampleDB).1
      = .ok (some sampleRow) ∧
    (ORM.update userModel (some readyManager) 1 [("bogus", 5)] sampleDB).2.1.rows
      = sampleDB.rows.map (fun x => if x.id = 1 then sampleRow else x) :=
  update_unknown_fields_silently_accepted userModel readyManager rfl 1
    [("bogus", 5)] sampleDB sampleRow (by decide) (by decide)

theorem checkRelatedAttrs_cases (m : Model) (as : List String) :
    checkRelatedAttrs m as = .ok () ∨
    ∃ b, ¬ b ∈ m.attrs ∧
      checkRelatedAttrs m as = .error (.attributeError m.name b) := by
  induction as with
  | nil => exact .inl rfl
  | cons a rest ih =>
      by_cases hmem : a ∈ m.attrs
      · rcases ih with hok | ⟨b, hb, herr⟩
        · exact .inl (by simp [checkRelatedAttrs, hmem, hok])
        · exact .inr ⟨b, hb, by simp [checkRelatedAttrs, hmem, herr]⟩
      · exact .inr ⟨a, hmem, by simp [checkRelatedAttrs, hmem]⟩

/-! ### Claim C1 -/

/-- Claim C1: on an initialized manager, a predicate set containing a key
that is not an attribute of the bound entity type makes `filter`,
`first`, `exists` and `select_related` fail with an `AttributeError`
while zero statements reach the session. -/
theorem unknown_predicate_key_fails_before_query (m : Model)
    (mgr : DataBaseSessionManager)
    (ha : mgr.asyncSessionmakerPresent = true)
    (filters : List (String × Value)) (relAttrs : Option (List String))
    (db : DB)
    (hbad : ∃ p ∈ filters, ¬ p.1 ∈ m.attrs) :
    ((∃ a, ¬ a ∈ m.attrs ∧ (ORM.filter m (some mgr) filters db).1
        = .error (.attributeError m.name a)) ∧
      (ORM.filter m (some mgr) filters db).2.2.count Ev.stmt = 0) ∧
    ((∃ a, ¬ a ∈ m.attrs ∧ (ORM.first m (some mgr) filters db).1
        = .error (.attributeError m.name a)) ∧
      (ORM.first m (some mgr) filters db).2.2.count Ev.stmt = 0) ∧
    ((∃ a, ¬ a ∈ m.attrs ∧ (ORM.existsQ m (some mgr) filters db).1
        = .error (.attributeError m.name a)) ∧
      (ORM.existsQ m (some mgr) filters db).2.2.count Ev.stmt = 0) ∧
    ((∃ a, ¬ a ∈ m.attrs ∧
        (ORM.select_related m (some mgr) relAttrs filters db).1
          = .error (.attributeError m.name a)) ∧
      (ORM.select_related m (some mgr) relAttrs filters db).2.2.count
        Ev.stmt = 0) := by
  obtain ⟨a, hna, herr⟩ := condsOf_error_of_unknown m filters hbad
  have hfc : ORM.filterConditions m (some filters)
      = .error (.attributeError m.name a) := herr
  have hfil : ORM.filter m (some mgr) filters db
      = (.error (.attributeError m.name a), db, [Ev.openAsync]) := by
    simp [ORM.filter, asyncSessionOfBase, DataBaseSessionManager.async_session,
      ha, hfc]
  have hfirst : ORM.first m (some mgr) filters db
      = (.error (.attributeError m.name a), db, [Ev.openAsync]) := by
    simp [ORM.first, asyncSessionOfBase, DataBaseSessionManager.async_session,
      ha, hfc]
  have hex : ORM.existsQ m (some mgr) filters db
      = (.error (.attributeError m.name a), db, [Ev.openAsync]) := by
    simp [ORM.existsQ, hfirst]
  refine ⟨⟨⟨a, hna, by rw [hfil]⟩, by rw [hfil]; rfl⟩,
    ⟨⟨a, hna, by rw [hfirst]⟩, by rw [hfirst]; rfl⟩,
    ⟨⟨a, hna, by rw [hex]⟩, by rw [hex]; rfl⟩, ?_⟩
  rcases checkRelatedAttrs_cases m (relAttrs.getD []) with hok | ⟨b, hb, herr2⟩
  · have hsel : ORM.select_related m (some mgr) relAttrs filters db
        = (.error (.attributeError m.name a), db, [Ev.openAsync]) := by
      simp [ORM.select_related, hok, asyncSessionOfBase,
        DataBaseSessionManager.async_session, ha, hfc]
    exact ⟨⟨a, hna, by rw [hsel]⟩, by rw [hsel]; rfl⟩
  · have hsel : ORM.select_related m (some mgr) relAttrs filters db
        = (.error (.attributeError m.name b), db, []) := by
      simp [ORM.select_related, herr2]
    exact ⟨⟨b, hb, by rw [hsel]⟩, by rw [hsel]; rfl⟩

/-- Witness for C1 at a concrete input. -/
theorem unknown_predicate_key_fails_before_query_witness :
    (∃ p ∈ [(("bogus" : String), (1 : Value))], ¬ p.1 ∈ userModel.attrs) ∧
    (((∃ a, ¬ a ∈ userModel.attrs ∧
        (ORM.filter userModel (some readyManager) [("bogus", 1)] sampleDB).1
          = .error (.attributeError userModel.name a)) ∧
      (ORM.filter userModel (some readyManager) [("bogus", 1)]
        sampleDB).2.2.count Ev.stmt = 0) ∧
    ((∃ a, ¬ a ∈ userModel.attrs ∧
        (ORM.first userModel (some readyManager) [("bogus", 1)] sampleDB).1
          = .error (.attributeError userModel.name a)) ∧
      (ORM.first userModel (some readyManager) [("bogus", 1)]
        sampleDB).2.2.count Ev.stmt = 0) ∧
    ((∃ a, ¬ a ∈ userModel.attrs ∧
        (ORM.existsQ userModel (some readyManager) [("bogus", 1)] sampleDB).1
          = .error (.attributeError userModel.name a)) ∧
      (ORM.existsQ userModel (some readyManager) [("bogus", 1)]
        sampleDB).2.2.count Ev.stmt = 0) ∧
    ((∃ a, ¬ a ∈ userModel.attrs ∧
        (ORM.select_related userModel (some readyManager) (some ["posts"])
          [("bogus", 1)] sampleDB).1
            = .error (.attributeError userModel.name a)) ∧
      (ORM.select_related userModel (some readyManager) (some ["posts"])
        [("bogus", 1)] sampleDB).2.2.count Ev.stmt = 0)) :=
  ⟨by decide,
   unknown_predicate_key_fails_before_query userModel readyManager rfl
     [("bogus", 1)] (some ["posts"]) sampleDB (by decide)⟩

/-! ### Claim C4 -/

/-- Claim C4: on an initialized manager, a missing identity and a valid
but non-matching predicate set make `get`, `update`, `first` and
`select_related` return the absence-signal (`.ok none`) rather than
raise. -/
theorem absent_rows_yield_none (m : Model) (mgr : DataBaseSessionManager)
    (ha : mgr.asyncSessionmakerPresent = true)
    (hs : mgr.syncSessionmakerPresent = true)
    (pk : Nat) (kwargs filters : List (String × Value))
    (relAttrs : List String) (db : DB)
    (hpk : ∀ r ∈ db.rows, ¬ r.id = pk)
    (hkeys : ∀ p ∈ filters, p.1 ∈ m.attrs)
    (hrel : ∀ a ∈ relAttrs, a ∈ m.attrs)
    (hmatch : ∀ r ∈ db.rows, r.sat filters = false) :
    (ORM.get m (some mgr) pk db).1 = .ok none ∧
    (ORM.update m (some mgr) pk kwargs db).1 = .ok none ∧
    (ORM.first m (some mgr) filters db).1 = .ok none ∧
    (ORM.select_related m (some mgr) (some relAttrs) filters db).1
      = .ok none := by
  have hfind : db.rows.find? (fun r => r.id = pk) = none :=
    List.find?_eq_none.mpr (fun x hx => by simpa using hpk x hx)
  have hfc : ORM.filterConditions m (some filters) = .ok filters :=
    condsOf_ok_of_valid m filters hkeys
  have hfind2 : db.rows.find? (fun r => r.sat filters) = none :=
    List.find?_eq_none.mpr (fun x hx => by simp [hmatch x hx])
  refine ⟨?_, ?_, ?_, ?_⟩
  · simp [ORM.get, syncSessionOfBase, DataBaseSessionManager.sync_session,
      hs, hfind]
  · simp [ORM.update, asyncSessionOfBase,
      DataBaseSessionManager.async_session, ha, hfind]
  · simp [ORM.first, asyncSessionOfBase,
      DataBaseSessionManager.async_session, ha, hfc, hfind2]
  · simp [ORM.select_related, checkRelatedAttrs_ok_of_valid m relAttrs hrel,
      asyncSessionOfBase, DataBaseSessionManager.async_session, ha, hfc,
      hfind2]

/-- Witness for C4 at a concrete input. -/
theorem absent_rows_yield_none_witness :
    (∀ r ∈ sampleDB.rows, ¬ r.id = 5) ∧
    (∀ p ∈ [(("name" : String), (8 : Value))], p.1 ∈ userModel.attrs) ∧
    (∀ r ∈ sampleDB.rows, r.sat [("name", 8)] = false) ∧
    ((ORM.get userModel (some readyManager) 5 sampleDB).1 = .ok none ∧
     (ORM.update userModel (some readyManager) 5 [("name", 9)] sampleDB).1
       = .ok none ∧
     (ORM.first userModel (some readyManager) [("name", 8)] sampleDB).1
       = .ok none ∧
     (ORM.select_related userModel (some readyManager) (some ["posts"])
       [("name", 8)] sampleDB).1 = .ok none) :=
  ⟨by decide, by decide, by decide,
   absent_rows_yield_none userModel readyManager rfl rfl 5 [("name", 9)]
     [("name", 8)] ["posts"] sampleDB (by decide) (by decide) (by decide)
     (by decide)⟩

/-! ### Claim C6 -/

/-- Claim C6: `create(F)` followed by `get` on the identity of the
returned entity yields that entity back, with its fields equal to F
(round-trip), for any valid field mapping and any database whose stored
identities are below the autoincrement counter. -/
theorem create_get_roundtrip (m : Model) (mgr : DataBaseSessionManager)
    (ha : mgr.asyncSessionmakerPresent = true)
    (hs : mgr.syncSessionmakerPresent = true)
    (F : List (String × Value)) (db : DB)
    (hvalid : ∀ p ∈ F, p.1 ∈ m.attrs ∧ ¬ p.1 = "id")
    (hfresh : ∀ r ∈ db.rows, r.id < db.nextId) :
    ∃ created : Row,
      (ORM.create m (some mgr) F db).1 = .ok created ∧
      created.fields = F ∧
      (ORM.get m (some mgr) created.id
        (ORM.create m (some mgr) F db).2.1).1 = .ok (some created) := by
  refine ⟨⟨db.nextId, F⟩, ?_, rfl, ?_⟩
  · simp [ORM.create, asyncSessionOfBase,
      DataBaseSessionManager.async_session, ha]
  · have hcreate : (ORM.create m (some mgr) F db).2.1
        = ⟨db.rows ++ [⟨db.nextId, F⟩], db.nextId + 1⟩ := by
      simp [ORM.create, asyncSessionOfBase,
        DataBaseSessionManager.async_session, ha]
    rw [hcreate]
    have hnone : db.rows.find? (fun r => r.id = db.nextId) = none :=
      List.find?_eq_none.mpr (fun x hx => by
        have := hfresh x hx
        simp only [decide_eq_true_eq]
        omega)
    simp [ORM.get, syncSessionOfBase, DataBaseSessionManager.sync_session,
      hs, List.find?_append, hnone, List.find?]

/-- Witness for C6 at a concrete input. -/
theorem create_get_roundtrip_witness :
    (∀ p ∈ [(("name" : String), (7 : Value))],
      p.1 ∈ userModel.attrs ∧ ¬ p.1 = "id") ∧
    (∀ r ∈ emptyDB.rows, r.id < emptyDB.nextId) ∧
    (∃ created : Row,
      (ORM.create userModel (some readyManager) [("name", 7)] emptyDB).1
        = .ok created ∧
      created.fields = [("name", 7)] ∧
      (ORM.get userModel (some readyManager) created.id
        (ORM.create userModel (some readyManager) [("name", 7)]
          emptyDB).2.1).1 = .ok (some created)) :=
  ⟨by decide, by decide,
   create_get_roundtrip userModel readyManager rfl rfl [("name", 7)] emptyDB
     (by decide) (by decide)⟩

/-! ### Claim C7 -/

/-- Claim C7: on an initialized manager, `delete` on an existing identity
returns `True` and a subsequent `get` of that identity returns the
absence-signal, while `delete` on a missing identity returns `False` and
leaves the database unchanged. -/
theorem delete_existing_and_missing (m : Model)
    (mgr : DataBaseSessionManager)
    (ha : mgr.asyncSessionmakerPresent = true)
    (hs : mgr.syncSessionmakerPresent = true) (pk : Nat) (db : DB) :
    ((∃ r ∈ db.rows, r.id = pk) →
      (ORM.delete m (some mgr) pk db).1 = .ok true ∧
      (ORM.get m (some mgr) pk (ORM.delete m (some mgr) pk db).2.1).1
        = .ok none) ∧
    ((∀ r ∈ db.rows, ¬ r.id = pk) →
      (ORM.delete m (some mgr) pk db).1 = .ok false ∧
      (ORM.delete m (some mgr) pk db).2.1 = db) := by
  constructor
  · intro hex
    have hsome : (db.rows.find? (fun r => r.id = pk)).isSome := by
      rw [List.find?_isSome]
      rcases hex with ⟨r, hr, hid⟩
      exact ⟨r, hr, by simpa using hid⟩
    obtain ⟨r0, hr0⟩ := Option.isSome_iff_exists.mp hsome
    have hdel : ORM.delete m (some mgr) pk db
        = (.ok true, ⟨db.rows.filter (fun r => ¬ r.id = pk), db.nextId⟩,
            [Ev.openAsync, Ev.stmt, Ev.stmt, Ev.commit]) := by
      simp [ORM.delete, asyncSessionOfBase,
        DataBaseSessionManager.async_session, ha, hr0]
    refine ⟨by rw [hdel], ?_⟩
    rw [hdel]
    have hnone : (db.rows.filter (fun r => ¬ r.id = pk)).find?
        (fun r => r.id = pk) = none := by
      apply List.find?_eq_none.mpr
      intro x hx
      have := (List.mem_filter.mp hx).2
      simpa using this
    simp [ORM.get, syncSessionOfBase, DataBaseSessionManager.sync_session,
      hs, hnone]
  · intro hmiss
    have hfind : db.rows.find? (fun r => r.id = pk) = none :=
      List.find?_eq_none.mpr (fun x hx => by simpa using hmiss x hx)
    constructor <;>
      simp [ORM.delete, asyncSessionOfBase,
        DataBaseSessionManager.async_session, ha, hfind]

/-- Witness for C7 at a concrete input. -/
theorem delete_existing_and_missing_witness :
    ((∃ r ∈ sampleDB.rows, r.id = 1) →
      (ORM.delete userModel (some readyManager) 1 sampleDB).1 = .ok true ∧
      (ORM.get userModel (some readyManager) 1
        (ORM.delete userModel (some readyManager) 1 sampleDB).2.1).1
          = .ok none) ∧
    ((∀ r ∈ sampleDB.rows, ¬ r.id = 1) →
      (ORM.delete userModel (some readyManager) 1 sampleDB).1 = .ok false ∧
      (ORM.delete userModel (some readyManager) 1 sampleDB).2.1
        = sampleDB) :=
  delete_existing_and_missing userModel readyManager rfl rfl 1 sampleDB

/-! ### Claim C5 -/

/-- Claim C5: evaluation at the failing inputs — the scope-level
commit / rollback written in the session context managers never execute
in this program.  A successful `get` sees the SELECT and the `finally`
close but no commit; a `filter` that fails on an unknown predicate key
propagates the `AttributeError` with no rollback ever issued; and
`select_related` with an invalid relation name fails before any session
is opened at all. -/
theorem scope_commit_rollback_never_run :
    (ORM.get userModel (some readyManager) 1 sampleDB).1
      = .ok (some sampleRow) ∧
    (ORM.get userModel (some readyManager) 1 sampleDB).2.2
      = [Ev.openSync, Ev.stmt, Ev.closeSession] ∧
    (ORM.filter userModel (some readyManager) [("bogus", 1)] sampleDB).1
      = .error (.attributeError "User" "bogus") ∧
    (ORM.filter userModel (some readyManager) [("bogus", 1)] sampleDB).2.2
      = [Ev.openAsync] ∧
    (ORM.select_related userModel (some readyManager) (some ["bogus"]) []
      sampleDB).2.2 = ([] : List Ev) :=
  ⟨rfl, rfl, rfl, rfl, rfl⟩

/-! ### Claim C9 -/

/-- Claim C9: on an initialized manager, `get` — and only `get` —
acquires its session from the synchronous path (one `openSync`, no
`openAsync`), while every other Query Executor operation and the entity
`save` method acquire exactly one session from the asynchronous path and
none from the synchronous one. -/
theorem get_sync_rest_async (m : Model) (mgr : DataBaseSessionManager)
    (ha : mgr.asyncSessionmakerPresent = true)
    (hs : mgr.syncSessionmakerPresent = true)
    (pk : Nat) (kwargs filters : List (String × Value))
    (relAttrs : List String) (r : Row) (db : DB)
    (hrel : ∀ a ∈ relAttrs, a ∈ m.attrs) :
    ((ORM.get m (some mgr) pk db).2.2.count Ev.openSync = 1 ∧
     (ORM.get m (some mgr) pk db).2.2.count Ev.openAsync = 0) ∧
    ((ORM.create m (some mgr) kwargs db).2.2.count Ev.openAsync = 1 ∧
     (ORM.create m (some mgr) kwargs db).2.2.count Ev.openSync = 0) ∧
    ((ORM.update m (some mgr) pk kwargs db).2.2.count Ev.openAsync = 1 ∧
     (ORM.update m (some mgr) pk kwargs db).2.2.count Ev.openSync = 0) ∧
    ((ORM.delete m (some mgr) pk db).2.2.count Ev.openAsync = 1 ∧
     (ORM.delete m (some mgr) pk db).2.2.count Ev.openSync = 0) ∧
    ((ORM.all m (some mgr) db).2.2.count Ev.openAsync = 1 ∧
     (ORM.all m (some mgr) db).2.2.count Ev.openSync = 0) ∧
    ((ORM.filter m (some mgr) filters db).2.2.count Ev.openAsync = 1 ∧
     (ORM.filter m (some mgr) filters db).2.2.count Ev.openSync = 0) ∧
    ((ORM.first m (some mgr) filters db).2.2.count Ev.openAsync = 1 ∧
     (ORM.first m (some mgr) filters db).2.2.count Ev.openSync = 0) ∧
    ((ORM.count m (some mgr) db).2.2.count Ev.openAsync = 1 ∧
     (ORM.count m (some mgr) db).2.2.count Ev.openSync = 0) ∧
    ((ORM.existsQ m (some mgr) filters db).2.2.count Ev.openAsync = 1 ∧
     (ORM.existsQ m (some mgr) filters db).2.2.count Ev.openSync = 0) ∧
    ((ORM.select_related m (some mgr) (some relAttrs) filters
        db).2.2.count Ev.openAsync = 1 ∧
     (ORM.select_related m (some mgr) (some relAttrs) filters
        db).2.2.count Ev.openSync = 0) ∧
    ((BaseORM.save r (some mgr) db).2.2.count Ev.openAsync = 1 ∧
     (BaseORM.save r (some mgr) db).2.2.count Ev.openSync = 0) := by
  refine ⟨?_, ?_, ?_, ?_, ?_, ?_, ?_, ?_, ?_, ?_, ?_⟩
  · simp only [ORM.get, syncSessionOfBase,
      DataBaseSessionManager.sync_session, hs, Bool.true_eq_false, if_false]
    exact ⟨rfl, rfl⟩
  · simp only [ORM.create, asyncSessionOfBase,
      DataBaseSessionManager.async_session, ha, Bool.true_eq_false, if_false]
    exact ⟨rfl, rfl⟩
  · rcases h : db.rows.find? (fun x => x.id = pk) with _ | x <;>
      simp only [ORM.update, asyncSessionOfBase,
        DataBaseSessionManager.async_session, ha, Bool.true_eq_false,
        if_false, h] <;>
      exact ⟨rfl, rfl⟩
  · rcases h : db.rows.find? (fun x => x.id = pk) with _ | x <;>
      simp only [ORM.delete, asyncSessionOfBase,
        DataBaseSessionManager.async_session, ha, Bool.true_eq_false,
        if_false, h] <;>
      exact ⟨rfl, rfl⟩
  · simp only [ORM.all, asyncSessionOfBase,
      DataBaseSessionManager.async_session, ha, Bool.true_eq_false, if_false]
    exact ⟨rfl, rfl⟩
  · rcases h : ORM.filterConditions m (some filters) with e | conds <;>
      simp only [ORM.filter, asyncSessionOfBase,
        DataBaseSessionManager.async_session, ha, Bool.true_eq_false,
        if_false, h] <;>
      exact ⟨rfl, rfl⟩
  · rcases h : ORM.filterConditions m (some filters) with e | conds <;>
      simp only [ORM.first, asyncSessionOfBase,
        DataBaseSessionManager.async_session, ha, Bool.true_eq_false,
        if_false, h] <;>
      exact ⟨rfl, rfl⟩
  · simp only [ORM.count, asyncSessionOfBase,
      DataBaseSessionManager.async_session, ha, Bool.true_eq_false, if_false]
    exact ⟨rfl, rfl⟩
  · rcases h : ORM.filterConditions m (some filters) with e | conds <;>
      simp only [ORM.existsQ, ORM.first, asyncSessionOfBase,
        DataBaseSessionManager.async_session, ha, Bool.true_eq_false,
        if_false, h] <;>
      exact ⟨rfl, rfl⟩
  · have hok : checkRelatedAttrs m ((some relAttrs).getD []) = .ok () :=
      checkRelatedAttrs_ok_of_valid m relAttrs hrel
    rcases h : ORM.filterConditions m (some filters) with e | conds
    · simp only [ORM.select_related, hok, asyncSessionOfBase,
        DataBaseSessionManager.async_session, ha, Bool.true_eq_false,
        if_false, h]
      exact ⟨rfl, rfl⟩
    · rcases h2 : db.rows.find? (fun x => x.sat conds) with _ | x <;>
        simp only [ORM.select_related, hok, asyncSessionOfBase,
          DataBaseSessionManager.async_session, ha, Bool.true_eq_false,
          if_false, h, h2] <;>
        exact ⟨rfl, rfl⟩
  · rcases h : db.rows.find? (fun x => x.id = r.id) with _ | x <;>
      simp only [BaseORM.save, asyncSessionOfBase,
        DataBaseSessionManager.async_session, ha, Bool.true_eq_false,
        if_false, h] <;>
      exact ⟨rfl, rfl⟩

/-- Witness for C9 at a concrete input. -/
theorem get_sync_rest_async_witness :
    ((ORM.get userModel (some readyManager) 1 sampleDB).2.2.count
        Ev.openSync = 1 ∧
     (ORM.get userModel (some readyManager) 1 sampleDB).2.2.count
        Ev.openAsync = 0) ∧
    ((ORM.create userModel (some readyManager) [("name", 9)]
        sampleDB).2.2.count Ev.openAsync = 1 ∧
     (ORM.create userModel (some readyManager) [("name", 9)]
        sampleDB).2.2.count Ev.openSync = 0) ∧
    ((ORM.update userModel (some readyManager) 1 [("name", 9)]
        sampleDB).2.2.count Ev.openAsync = 1 ∧
     (ORM.update userModel (some readyManager) 1 [("name", 9)]
        sampleDB).2.2.count Ev.openSync = 0) ∧
    ((ORM.delete userModel (some readyManager) 1 sampleDB).2.2.count
        Ev.openAsync = 1 ∧
     (ORM.delete userModel (some readyManager) 1 sampleDB).2.2.count
        Ev.openSync = 0) ∧
    ((ORM.all userModel (some readyManager) sampleDB).2.2.count
        Ev.openAsync = 1 ∧
     (ORM.all userModel (some readyManager) sampleDB).2.2.count
        Ev.openSync = 0) ∧
    ((ORM.filter userModel (some readyManager) [("name", 8)]
        sampleDB).2.2.count Ev.openAsync = 1 ∧
     (ORM.filter userModel (some readyManager) [("name", 8)]
        sampleDB).2.2.count Ev.openSync = 0) ∧
    ((ORM.first userModel (some readyManager) [("name", 8)]
        sampleDB).2.2.count Ev.openAsync = 1 ∧
     (ORM.first userModel (some readyManager) [("name", 8)]
        sampleDB).2.2.count Ev.openSync = 0) ∧
    ((ORM.count userModel (some readyManager) sampleDB).2.2.count
        Ev.openAsync = 1 ∧
     (ORM.count userModel (some readyManager) sampleDB).2.2.count
        Ev.openSync = 0) ∧
    ((ORM.existsQ userModel (some readyManager) [("name", 8)]
        sampleDB).2.2.count Ev.openAsync = 1 ∧
     (ORM.existsQ userModel (some readyManager) [("name", 8)]
        sampleDB).2.2.count Ev.openSync = 0) ∧
    ((ORM.select_related userModel (some readyManager) (some ["posts"])
        [("name", 8)] sampleDB).2.2.count Ev.openAsync = 1 ∧
     (ORM.select_related userModel (some readyManager) (some ["posts"])
        [("name", 8)] sampleDB).2.2.count Ev.openSync = 0) ∧
    ((BaseORM.save sampleRow (some readyManager) sampleDB).2.2.count
        Ev.openAsync = 1 ∧
     (BaseORM.save sampleRow (some readyManager) sampleDB).2.2.count
        Ev.openSync = 0) :=
  get_sync_rest_async userModel readyManager rfl rfl 1 [("name", 9)]
    [("name", 8)] ["posts"] sampleRow sampleDB (by decide)

/-! ### Claim C8 -/

theorem create_run (m : Model) (mgr : DataBaseSessionManager)
    (ha : mgr.asyncSessionmakerPresent = true)
    (kw : List (String × Value)) (db : DB) :
    (ORM.create m (some mgr) kw db).2.1
      = ⟨db.rows ++ [⟨db.nextId, kw⟩], db.nextId + 1⟩ := by
  simp [ORM.create, asyncSessionOfBase,
    DataBaseSessionManager.async_session, ha]

theorem delete_run_found (m : Model) (mgr : DataBaseSessionManager)
    (ha : mgr.asyncSessionmakerPresent = true) (pk : Nat) (db : DB)
    (r : Row) (hfind : db.rows.find? (fun x => x.id = pk) = some r) :
    (ORM.delete m (some mgr) pk db).1 = .ok true ∧
    (ORM.delete m (some mgr) pk db).2.1
      = ⟨db.rows.filter (fun x => ¬ x.id = pk), db.nextId⟩ := by
  constructor <;>
    simp [ORM.delete, asyncSessionOfBase,
      DataBaseSessionManager.async_session, ha, hfind]

theorem delete_run_missing (m : Model) (mgr : DataBaseSessionManager)
    (ha : mgr.asyncSessionmakerPresent = true) (pk : Nat) (db : DB)
    (hfind : db.rows.find? (fun x => x.id = pk) = none) :
    (ORM.delete m (some mgr) pk db).1 = .ok false ∧
    (ORM.delete m (some mgr) pk db).2.1 = db := by
  constructor <;>
    simp [ORM.delete, asyncSessionOfBase,
      DataBaseSessionManager.async_session, ha, hfind]

theorem WF_create (db : DB) (hwf : db.WF) (kw : List (String × Value)) :
    DB.WF ⟨db.rows ++ [⟨db.nextId, kw⟩], db.nextId + 1⟩ := by
  obtain ⟨hbound, hnd⟩ := hwf
  constructor
  · intro r hr
    rcases List.mem_append.mp hr with hmem | hmem
    · exact Nat.lt_succ_of_lt (hbound r hmem)
    · simp at hmem
      subst hmem
      exact Nat.lt_succ_self _
  · rw [List.map_append, List.nodup_append]
    refine ⟨hnd, List.nodup_singleton _, ?_⟩
    intro x hx
    have hlt : x < db.nextId := by
      rcases List.mem_map.mp hx with ⟨r, hr, hid⟩
      subst hid
      exact hbound r hr
    simp
    omega

theorem WF_filter (db : DB) (hwf : db.WF) (p : Row → Bool) :
    DB.WF ⟨db.rows.filter p, db.nextId⟩ := by
  obtain ⟨hbound, hnd⟩ := hwf
  constructor
  · intro r hr
    exact hbound r (List.mem_of_mem_filter hr)
  · exact List.Nodup.sublist (List.Sublist.map Row.id
      (List.filter_sublist db.rows)) hnd

theorem length_filter_ne (rows : List Row) (pk : Nat)
    (hnd : (rows.map Row.id).Nodup) (r : Row) (hr : r ∈ rows)
    (hid : r.id = pk) :
    (rows.filter (fun x => ¬ x.id = pk)).length + 1 = rows.length := by
  induction rows with
  | nil => cases hr
  | cons a rest ih =>
      rw [List.map_cons, List.nodup_cons] at hnd
      obtain ⟨hna, hndrest⟩ := hnd
      by_cases hapk : a.id = pk
      · have hrest : ∀ x ∈ rest, ¬ x.id = pk := by
          intro x hx hxpk
          exact hna (List.mem_map.mpr ⟨x, hx, by rw [hxpk, hapk]⟩)
        have hfix : rest.filter (fun x => ¬ x.id = pk) = rest :=
          List.filter_eq_self.mpr (fun x hx => by simpa using hrest x hx)
        have hdrop : (a :: rest).filter (fun x => ¬ x.id = pk)
            = rest.filter (fun x => ¬ x.id = pk) := by
          simp [List.filter_cons, hapk]
        rw [hdrop, hfix]
        simp
      · have hr' : r ∈ rest := by
          rcases List.mem_cons.mp hr with h1 | h1
          · subst h1; exact absurd hid hapk
          · exact h1
        have hlen := ih hndrest hr'
        have hkeep : (a :: rest).filter (fun x => ¬ x.id = pk)
            = a :: rest.filter (fun x => ¬ x.id = pk) := by
          simp [List.filter_cons, hapk]
        rw [hkeep]
        simp only [List.length_cons]
        omega

theorem runStep_length (m : Model) (mgr : DataBaseSessionManager)
    (ha : mgr.asyncSessionmakerPresent = true) (db : DB) (hwf : db.WF)
    (s : Step) :
    DB.WF (runStep m mgr db s) ∧
    (runStep m mgr db s).rows.length +
      (match s with
       | .createRecord _ => 0
       | .deleteRecord pk =>
           if (ORM.delete m (some mgr) pk db).1 = .ok true then 1 else 0)
      = db.rows.length +
      (match s with
       | .createRecord _ => 1
       | .deleteRecord _ => 0) := by
  cases s with
  | createRecord kw =>
      have hrun : runStep m mgr db (.createRecord kw)
          = ⟨db.rows ++ [⟨db.nextId, kw⟩], db.nextId + 1⟩ := by
        simp [runStep, create_run m mgr ha kw db]
      rw [hrun]
      refine ⟨WF_create db hwf kw, ?_⟩
      simp
  | deleteRecord pk =>
      rcases hfind : db.rows.find? (fun x => x.id = pk) with _ | r
      · obtain ⟨hres, hdb⟩ := delete_run_missing m mgr ha pk db hfind
        have hrun : runStep m mgr db (.deleteRecord pk) = db := by
          simp [runStep, hdb]
        rw [hrun]
        refine ⟨hwf, ?_⟩
        simp [hres]
      · obtain ⟨hres, hdb⟩ := delete_run_found m mgr ha pk db r hfind
        have hrun : runStep m mgr db (.deleteRecord pk)
            = ⟨db.rows.filter (fun x => ¬ x.id = pk), db.nextId⟩ := by
          simp [runStep, hdb]
        rw [hrun]
        refine ⟨WF_filter db hwf _, ?_⟩
        have hmem : r ∈ db.rows := List.mem_of_find?_eq_some hfind
        have hrid : r.id = pk := by
          have := List.find?_some hfind
          simpa using this
        have hlen := length_filter_ne db.rows pk hwf.2 r hmem hrid
        have hif : (if (ORM.delete m (some mgr) pk db).1 = .ok true
            then 1 else 0) = 1 := by
          simp [hres]
        simp only [hif]
        omega

theorem runSteps_length (m : Model) (mgr : DataBaseSessionManager)
    (ha : mgr.asyncSessionmakerPresent = true) :
    ∀ (steps : List Step) (db : DB), db.WF →
      (runSteps m mgr db steps).rows.length +
          numSuccessfulDeletes m mgr db steps
        = db.rows.length + numCreates steps := by
  intro steps
  induction steps with
  | nil =>
      intro db hwf
      simp [runSteps, numSuccessfulDeletes, numCreates]
  | cons s rest ih =>
      intro db hwf
      obtain ⟨hwf2, hlen⟩ := runStep_length m mgr ha db hwf s
      have hrest := ih (runStep m mgr db s) hwf2
      cases s with
      | createRecord kw =>
          simp only [runSteps, numSuccessfulDeletes, numCreates] at *
          omega
      | deleteRecord pk =>
          simp only [runSteps, numSuccessfulDeletes, numCreates] at *
          by_cases hok : (ORM.delete m (some mgr) pk db).1 = .ok true <;>
            simp [hok] at hlen ⊢ <;>
            omega

/-- Claim C8: starting from an empty table, after any sequence of
`create` and `delete` calls on an initialized manager — N creates, all of
which succeed, and M deletes counted as successful exactly when they
returned `True` — `count()` returns N − M (and M ≤ N always holds). -/
theorem count_after_creates_and_deletes (m : Model)
    (mgr : DataBaseSessionManager)
    (ha : mgr.asyncSessionmakerPresent = true)
    (steps : List Step) (n0 : Nat) :
    numSuccessfulDeletes m mgr ⟨[], n0⟩ steps ≤ numCreates steps ∧
    (ORM.count m (some mgr) (runSteps m mgr ⟨[], n0⟩ steps)).1
      = .ok (numCreates steps
          - numSuccessfulDeletes m mgr ⟨[], n0⟩ steps) := by
  have hwf : DB.WF ⟨[], n0⟩ := ⟨by simp, by simp⟩
  have h := runSteps_length m mgr ha steps ⟨[], n0⟩ hwf
  have hcount : (ORM.count m (some mgr) (runSteps m mgr ⟨[], n0⟩ steps)).1
      = .ok (runSteps m mgr ⟨[], n0⟩ steps).rows.length := by
    simp [ORM.count, asyncSessionOfBase,
      DataBaseSessionManager.async_session, ha]
  simp only [List.length_nil] at h
  constructor
  · omega
  · rw [hcount]
    congr 1
    omega

/-- Witness for C8 at a concrete call sequence: two creates followed by
one successful delete leave one row. -/
theorem count_after_creates_and_deletes_witness :
    numSuccessfulDeletes userModel readyManager ⟨[], 1⟩
        [Step.createRecord [("name", 1)], Step.createRecord [("name", 2)],
         Step.deleteRecord 1]
      ≤ numCreates
        [Step.createRecord [("name", 1)], Step.createRecord [("name", 2)],
         Step.deleteRecord 1] ∧
    (ORM.count userModel (some readyManager)
        (runSteps userModel readyManager ⟨[], 1⟩
          [Step.createRecord [("name", 1)], Step.createRecord [("name", 2)],
           Step.deleteRecord 1])).1
      = .ok (numCreates
          [Step.createRecord [("name", 1)], Step.createRecord [("name", 2)],
           Step.deleteRecord 1]
        - numSuccessfulDeletes userModel readyManager ⟨[], 1⟩
          [Step.createRecord [("name", 1)], Step.createRecord [("name", 2)],
           Step.deleteRecord 1]) :=
  count_after_creates_and_deletes userModel readyManager rfl
    [Step.createRecord [("name", 1)], Step.createRecord [("name", 2)],
     Step.deleteRecord 1] 1

end FastAPiPro
